import Mathlib

/-!
Verification development for the CalmWeb filtering proxy core
(`calmweb/core/blocklist_manager.py`, `calmweb/core/proxy_server.py`,
`calmweb/config/config_manager.py`, and the reload concurrency skeleton).

Hostnames, list entries and wire data are modelled as `List Char`
(Python `str` values over the ASCII range the proxy handles).
The Python `ipaddress` standard-library boundary is modelled as an abstract
recognizer `isIp : List Char → Bool` (the set of strings accepted by
`ipaddress.ip_address`) together with per-network membership predicates;
a concrete IPv4 instantiation `isIpv4` is provided for evaluation.
-/

/-! ### Python string primitives -/

/-- Whitespace characters removed by Python `str.strip()` (ASCII subset). -/
def isPySpace (c : Char) : Bool :=
  decide (c.toNat = 32 ∨ c.toNat = 9 ∨ c.toNat = 10 ∨ c.toNat = 13 ∨
          c.toNat = 11 ∨ c.toNat = 12)

/-- ASCII `str.lower()` on a single character. -/
def pyLowerChar (c : Char) : Char :=
  if 65 ≤ c.toNat ∧ c.toNat ≤ 90 then Char.ofNat (c.toNat + 32) else c

/-- `str.lower()`. -/
def lowerL (l : List Char) : List Char := l.map pyLowerChar

/-- `str.strip()`: drop leading and trailing whitespace. -/
def stripL (l : List Char) : List Char :=
  ((l.dropWhile isPySpace).reverse.dropWhile isPySpace).reverse

/-- `str.rstrip('.')`: drop trailing dots. -/
def rstripDots (l : List Char) : List Char :=
  (l.reverse.dropWhile (fun c => decide (c = '.'))).reverse

/-- `str.lstrip('.')`: drop leading dots. -/
def lstripDots (l : List Char) : List Char :=
  l.dropWhile (fun c => decide (c = '.'))

/-- The hostname normalization used throughout the resolver:
`hostname.strip().lower().rstrip('.')`. -/
def pyNormalize (l : List Char) : List Char := rstripDots (lowerL (stripL l))

/-- A string with no Python whitespace characters (every actual hostname). -/
def noWs (l : List Char) : Bool := l.all (fun c => !isPySpace c)

/-- Python `s.split('.')`: splits at every dot, keeping empty pieces
(`"".split('.') == [""]`). -/
def splitOnDot : List Char → List (List Char)
  | [] => [[]]
  | c :: cs =>
    if c = '.' then [] :: splitOnDot cs
    else
      match splitOnDot cs with
      | [] => [[c]]
      | l :: ls => (c :: l) :: ls

/-- Python `'.'.join(parts)`. -/
def joinDots : List (List Char) → List Char
  | [] => []
  | [l] => l
  | l :: ls => l ++ '.' :: joinDots ls

/-- The candidate strings `'.'.join(parts[i:])` for `i` in
`range(len(parts))`: the host itself, then each parent suffix, ending with
the final single label. -/
def labelSuffixes : List (List Char) → List (List Char)
  | [] => []
  | l :: ls => joinDots (l :: ls) :: labelSuffixes ls

/-- Set membership for Python `set` of strings, modelled on lists. -/
def memL (x : List Char) (l : List (List Char)) : Bool :=
  l.any (fun y => decide (y = x))

/-- Membership in a list of naturals (the allowed-ports set). -/
def memNat (x : Nat) (l : List Nat) : Bool := l.any (fun y => decide (y = x))

/-- `s.split(c, 1)[0]`: the part before the first occurrence of `c`
(the whole string when `c` is absent). -/
def takeUntil (c : Char) (l : List Char) : List Char :=
  l.takeWhile (fun d => !decide (d = c))

/-- The part after the first occurrence of `c` (empty when `c` is absent). -/
def afterFirst (c : Char) (l : List Char) : List Char :=
  (l.dropWhile (fun d => !decide (d = c))).drop 1

/-- Whether the character occurs in the string. -/
def hasChar (c : Char) (l : List Char) : Bool := l.any (fun d => decide (d = c))

/-- `s.rpartition(c)[2]`: the part after the last occurrence of `c`
(the whole string when `c` is absent). -/
def afterLast (c : Char) (l : List Char) : List Char :=
  (takeUntil c l.reverse).reverse

/-- Numeric value of a digit string (used for `int(s)` on all-digit input). -/
def natOf (l : List Char) : Nat := l.foldl (fun n c => n * 10 + (c.toNat - 48)) 0

/-- Python `s.startswith(pre)`. -/
def leadsWith : List Char → List Char → Bool
  | [], _ => true
  | _, [] => false
  | p :: ps, c :: cs => decide (p = c) && leadsWith ps cs

/-- Helper for `pyWords`: `cur` holds the reversed current token. -/
def pyWordsGo : List Char → List Char → List (List Char)
  | [], cur => if cur = [] then [] else [cur.reverse]
  | c :: cs, cur =>
    if isPySpace c then
      if cur = [] then pyWordsGo cs [] else cur.reverse :: pyWordsGo cs []
    else pyWordsGo cs (c :: cur)

/-- Python `s.split()` with no argument: split on whitespace runs,
dropping empty tokens. -/
def pyWords (l : List Char) : List (List Char) := pyWordsGo l []

/-! ### Concrete instantiation of the `ipaddress` boundary: IPv4 -/

/-- One dotted-quad octet as accepted by `ipaddress.IPv4Address`
(Python ≥ 3.9: decimal digits, no leading zero, value at most 255). -/
def isOctet (p : List Char) : Bool :=
  !p.isEmpty && p.all Char.isDigit &&
    (decide (p.length = 1) || !decide (p.headD '0' = '0')) && decide (natOf p ≤ 255)

/-- `ipaddress.ip_address` acceptance restricted to IPv4 dotted quads
(the concrete inputs evaluated below are IPv4 or plain domains,
so the IPv6 grammar is not needed). -/
def isIpv4 (s : List Char) : Bool :=
  match splitOnDot s with
  | [a, b, c, d] => isOctet a && isOctet b && isOctet c && isOctet d
  | _ => false

/-! ### BlocklistResolver state (`blocklist_manager.py`) -/

/-- The per-resolver state of `BlocklistResolver`: the blocklist set, the
whitelist domain set, the whitelist CIDR networks (each network modelled by
the membership test `ipaddress.ip_address(host) in net` as a predicate on the
host string), and `last_reload`. -/
structure Resolver where
  blocked_domains : List (List Char)
  whitelisted_domains_local : List (List Char)
  whitelisted_networks : List (List Char → Bool)
  last_reload : Nat

/-- The module-level state `blocklist_manager` reads from
`calmweb.config.settings`: the global manual block/whitelist sets and the
`block_ip_direct` value bound by the `from ... import` at module load. -/
structure Globals where
  manual_blocked_domains : List (List Char)
  whitelisted_domains : List (List Char)
  block_ip_direct : Bool

/-- `BlocklistResolver.is_whitelisted` (blocklist_manager.py lines 218-259):
normalize; empty or `None` is never whitelisted; a host accepted by
`ipaddress.ip_address` is whitelisted iff the exact string is in the domain
whitelist or some whitelisted network contains it; otherwise every
right-aligned label suffix (including the host itself and the final single
label) is tested against the domain whitelist. -/
def is_whitelisted (isIp : List Char → Bool) (r : Resolver)
    (hostname : Option (List Char)) : Bool :=
  match hostname with
  | none => false
  | some hn =>
    if hn = [] then false
    else
      let host := pyNormalize hn
      if host = [] then false
      else if isIp host then
        memL host r.whitelisted_domains_local ||
          r.whitelisted_networks.any (fun net => net host)
      else
        (labelSuffixes (splitOnDot host)).any
          (fun cand => memL cand r.whitelisted_domains_local)

/-- `BlocklistResolver._is_blocked` (blocklist_manager.py lines 261-322):
whitelist first (absolute priority); then literal IPs follow the
`block_ip_direct` flag unless the exact IP is in the global whitelist set;
then the exact host and every strict parent suffix of length at least 3
containing a dot are tested against the blocklist and the global manual
block set. -/
def is_blocked (isIp : List Char → Bool) (r : Resolver) (g : Globals)
    (hostname : Option (List Char)) : Bool :=
  match hostname with
  | none => false
  | some hn =>
    if hn = [] then false
    else
      let host := pyNormalize hn
      if host = [] then false
      else if is_whitelisted isIp r (some host) then false
      else if isIp host then
        if memL host g.whitelisted_domains then false else g.block_ip_direct
      else
        let parts := splitOnDot host
        if memL host r.blocked_domains || memL host g.manual_blocked_domains then
          true
        else
          (labelSuffixes parts.tail).any (fun parent =>
            (decide (3 ≤ parent.length) && hasChar '.' parent) &&
              (memL parent r.blocked_domains ||
                memL parent g.manual_blocked_domains))

/-! ### Blocklist loading (`_load_blocklist`, lines 54-127) -/

/-- One line of a blocklist document (lines 85-111): strip a `#` comment and
whitespace; skip blank lines; with one token that token is the candidate
domain, with two or more the first non-IP-looking token (hosts-file syntax);
lowercase and strip leading dots; reject empty, IP-shaped, longer than 253,
shorter than 3, or dot-free candidates. -/
def parse_blocklist_line (isIp : List Char → Bool) (line : List Char) :
    Option (List Char) :=
  let body := stripL (takeUntil '#' line)
  if body = [] then none
  else
    let parts := pyWords body
    let cand :=
      match parts with
      | [] => none
      | [d] => some d
      | d1 :: d2 :: _ => if isIp d1 then some d2 else some d1
    match cand with
    | none => none
    | some d0 =>
      if d0 = [] then none
      else
        let d := lstripDots (lowerL d0)
        if d = [] then none
        else if isIp d then none
        else if 253 < d.length then none
        else if d.length < 3 then none
        else if !hasChar '.' d then none
        else some d

/-- All domains parsed from one blocklist document. -/
def parse_blocklist_content (isIp : List Char → Bool)
    (content : List (List Char)) : List (List Char) :=
  content.filterMap (parse_blocklist_line isIp)

/-- `BlocklistResolver._load_blocklist` after the network effects are
resolved: `fetches` holds, per configured URL, the fetched document's lines
(`some`) or `none` when all three attempts failed (such a source is skipped).
The parsed union then replaces `blocked_domains` and `last_reload` is set —
unconditionally, with no guard for the zero-usable-sources case. -/
def load_blocklist (isIp : List Char → Bool) (r : Resolver)
    (fetches : List (Option (List (List Char)))) (now : Nat) : Resolver :=
  let domains := fetches.foldl
    (fun acc f =>
      match f with
      | none => acc
      | some content => acc ++ parse_blocklist_content isIp content) []
  { r with blocked_domains := domains, last_reload := now }

/-! ### Connection handler (`proxy_server.py`) -/

/-- The policy flags the handler reads live from `config_manager`
(each property takes the config lock and returns the current value). -/
structure Flags where
  block_enabled : Bool
  block_http_traffic : Bool
  block_http_other_ports : Bool

/-- Outcome tag of an emitted statistics event. -/
inductive EvKind
  | allowed
  | blocked
deriving DecidableEq

/-- One `update_dashboard_stats(outcome, hostname, real_ip)` call. -/
structure Event where
  kind : EvKind
  host : List Char
  ip : List Char
deriving DecidableEq

/-- `VOIP_ALLOWED_PORTS = {80, 443, 3478, 5060, 5061}`. -/
def allowedPorts : List Nat := [80, 443, 3478, 5060, 5061]

/-- The netloc of a URL: the part after `//` up to the first `/`, `?`
or `#` (urllib.parse). -/
def netlocOf (l : List Char) : List Char :=
  l.takeWhile (fun c => !decide (c = '/') && !decide (c = '?') && !decide (c = '#'))

/-- `urlsplit(...).hostname` for a netloc: text after the last `@`,
before the first `:`, lowercased; `None` when empty.  (IPv6 bracket
notation is outside the modelled input space.) -/
def hostOfNetloc (nl : List Char) : Option (List Char) :=
  let hi := afterLast '@' nl
  let host := takeUntil ':' hi
  if host = [] then none else some (lowerL host)

/-- The raw port text of a netloc: text after the first `:` of the
host info, `none` when there is no colon or the text is empty. -/
def portTextOfNetloc (nl : List Char) : Option (List Char) :=
  let hi := afterLast '@' nl
  if hasChar ':' hi then
    let t := afterFirst ':' hi
    if t = [] then none else some t
  else none

/-- `urlsplit(...).port`: `ok none` when absent, `ok (some n)` for a decimal
value at most 65535, and `error` (a raised `ValueError`) otherwise. -/
def urlPort (nl : List Char) : Except Unit (Option Nat) :=
  match portTextOfNetloc nl with
  | none => Except.ok none
  | some t =>
    if t.all Char.isDigit then
      if natOf t ≤ 65535 then Except.ok (some (natOf t)) else Except.error ()
    else Except.error ()

/-- `_extract_hostname_from_path` (proxy_server.py lines 45-50):
`urlparse(path).hostname` for the request forms the proxy receives
(absolute `http://` / `https://` URLs and scheme-less `//` forms carry a
netloc; origin-form paths yield no hostname). -/
def extractHostFromPath (path : List Char) : Option (List Char) :=
  if leadsWith "http://".toList path then hostOfNetloc (netlocOf (path.drop 7))
  else if leadsWith "https://".toList path then hostOfNetloc (netlocOf (path.drop 8))
  else if leadsWith "//".toList path then hostOfNetloc (netlocOf (path.drop 2))
  else none

/-- The hostname used for the whitelist/blocklist decision in
`_handle_http_method` (lines 151-156): from the URL in the request path,
else from the `Host` header up to the first colon; then `.lower().strip()`. -/
def httpReqHostname (path hostHeader : List Char) : Option (List Char) :=
  let h0 :=
    match extractHostFromPath path with
    | some hp => some hp
    | none => if hostHeader = [] then none else some (takeUntil ':' hostHeader)
  h0.map (fun h => stripL (lowerL h))

/-- Python `int(port_str)` with the surrounding `try/except` defaulting to
80 (lines 195-198): all-digit text parses, anything else falls back. -/
def pyIntOr80 (l : List Char) : Nat :=
  if l ≠ [] ∧ l.all Char.isDigit then natOf l else 80

/-- The forwarding target `(target_host, target_port)` of
`_handle_http_method` (lines 182-203): absolute URLs supply the lowercased
URL hostname and port (default 443 for https, 80 for http; a malformed port
raises, giving `error`); otherwise the raw `Host` header host and its port
(default 80). `none` as host models a missing/empty target (`400`). -/
def httpTarget (path hostHeader : List Char) :
    Except Unit (Option (List Char) × Nat) :=
  if leadsWith "http://".toList path ∨ leadsWith "https://".toList path then
    let isHttps := leadsWith "https://".toList path
    let nl := netlocOf (path.drop (if isHttps then 8 else 7))
    match urlPort nl with
    | Except.error u => Except.error u
    | Except.ok portOpt =>
      let dflt := if isHttps then 443 else 80
      let port :=
        match portOpt with
        | none => dflt
        | some p => if p = 0 then dflt else p
      Except.ok (hostOfNetloc nl, port)
  else
    let th := takeUntil ':' hostHeader
    let port :=
      if hasChar ':' hostHeader then pyIntOr80 (afterFirst ':' hostHeader) else 80
    Except.ok ((if th = [] then none else some th), port)

/-- Result of the non-CONNECT handler, up to the upstream relay. -/
inductive HttpOutcome
  | blocked403
  | badRequest400
  | portBlocked403
  | httpBlocked403
  | badGateway502
  | forward (host : List Char) (port : Nat)
deriving DecidableEq

/-- `_handle_http_method` (proxy_server.py lines 147-287) as a decision
function: the outcome sent to the client plus the statistics events emitted
along the way.  `resolveIp` models `resolve_ip` (a DNS lookup falling back
to the hostname). -/
def handle_http_method (isIp : List Char → Bool) (r : Resolver) (g : Globals)
    (fl : Flags) (resolveIp : List Char → List Char)
    (path hostHeader : List Char) : HttpOutcome × List Event :=
  let hn := httpReqHostname path hostHeader
  let wl := is_whitelisted isIp r hn
  if !wl && fl.block_enabled && is_blocked isIp r g hn then
    (HttpOutcome.blocked403,
      [⟨EvKind.blocked, hn.getD [], resolveIp (hn.getD [])⟩])
  else
    match httpTarget path hostHeader with
    | Except.error _ => (HttpOutcome.badGateway502, [])
    | Except.ok (none, _) => (HttpOutcome.badRequest400, [])
    | Except.ok (some th, port) =>
      if !wl && fl.block_http_other_ports && !memNat port allowedPorts then
        (HttpOutcome.portBlocked403, [])
      else if !wl && fl.block_enabled && fl.block_http_traffic &&
          leadsWith "http://".toList path then
        (HttpOutcome.httpBlocked403, [])
      else
        let evs :=
          if th = "127.0.0.1".toList ∨ th = "localhost".toList then []
          else [⟨EvKind.allowed, th, resolveIp th⟩]
        (HttpOutcome.forward th port, evs)

/-- Result of the CONNECT handler, up to the relay. -/
inductive ConnectOutcome
  | malformed
  | bypassTunnel
  | blocked403
  | portBlocked403
  | tunnel
deriving DecidableEq

/-- `do_CONNECT` (proxy_server.py lines 52-145) as a decision function:
the path is `host:port`; a whitelisted host bypasses every check (no event);
a blocked host gets `403` with one blocked event; a non-standard port gets
`403` with no event; otherwise the tunnel is established with one allowed
event (emitted before the upstream connection is attempted). -/
def do_CONNECT (isIp : List Char → Bool) (r : Resolver) (g : Globals)
    (fl : Flags) (resolveIp : List Char → List Char) (path : List Char) :
    ConnectOutcome × List Event :=
  if !hasChar ':' path then (ConnectOutcome.malformed, [])
  else
    let target_host := takeUntil ':' path
    let portStr := afterFirst ':' path
    if portStr = [] ∨ ¬portStr.all Char.isDigit then (ConnectOutcome.malformed, [])
    else
      let port := natOf portStr
      let hostname :=
        if target_host = [] then none else some (lowerL target_host)
      if is_whitelisted isIp r hostname then (ConnectOutcome.bypassTunnel, [])
      else if fl.block_enabled && is_blocked isIp r g hostname then
        (ConnectOutcome.blocked403,
          [⟨EvKind.blocked, hostname.getD [], resolveIp target_host⟩])
      else if fl.block_http_other_ports && !memNat port allowedPorts then
        (ConnectOutcome.portBlocked403, [])
      else
        (ConnectOutcome.tunnel,
          [⟨EvKind.allowed, hostname.getD [], resolveIp target_host⟩])

/-- The event-emission rule the code actually follows, per CONNECT outcome
(the amended form of the event-sink claim). -/
def connectEventsOk : ConnectOutcome × List Event → Bool
  | (ConnectOutcome.blocked403, evs) =>
    decide (evs.length = 1) && evs.all (fun e => decide (e.kind = EvKind.blocked))
  | (ConnectOutcome.tunnel, evs) =>
    decide (evs.length = 1) && evs.all (fun e => decide (e.kind = EvKind.allowed))
  | (_, evs) => evs.isEmpty

/-- The event-emission rule the code actually follows, per non-CONNECT
outcome: one blocked event on a blocklist 403; one allowed event on a
forward unless the target host is loopback; nothing otherwise. -/
def httpEventsOk : HttpOutcome × List Event → Bool
  | (HttpOutcome.blocked403, evs) =>
    decide (evs.length = 1) && evs.all (fun e => decide (e.kind = EvKind.blocked))
  | (HttpOutcome.forward th _, evs) =>
    if th = "127.0.0.1".toList ∨ th = "localhost".toList then evs.isEmpty
    else decide (evs.length = 1) && evs.all (fun e => decide (e.kind = EvKind.allowed))
  | (_, evs) => evs.isEmpty

/-! ### Wire bytes of the CONNECT success reply

`do_CONNECT` replies with `send_response(200, "Connection Established")`,
`send_header('Connection', 'close')`, `end_headers()` on a handler whose
`protocol_version` is `HTTP/1.1`.  `http.server`'s `send_response` writes
the status line and then also buffers `Server:` and `Date:` header lines
(`send_response_only` + two `send_header` calls); `end_headers` appends the
blank line. -/

/-- Decimal rendering of a status code. -/
def digitsOf (n : Nat) : List Char :=
  (Nat.toDigits 10 n)

/-- `send_response_only(code, message)` bytes under `HTTP/1.1`. -/
def statusLineBytes (code : Nat) (msg : List Char) : List Char :=
  "HTTP/1.1 ".toList ++ digitsOf code ++ [' '] ++ msg ++ "\r\n".toList

/-- One buffered `send_header(keyword, value)` line. -/
def headerLineBytes (k v : List Char) : List Char :=
  k ++ ": ".toList ++ v ++ "\r\n".toList

/-- `send_response(code, msg)`: status line plus the `Server:` and `Date:`
headers `http.server` adds. -/
def send_response_bytes (code : Nat) (msg server date : List Char) : List Char :=
  statusLineBytes code msg ++ headerLineBytes "Server".toList server ++
    headerLineBytes "Date".toList date

/-- The full pre-relay reply of an allowed CONNECT: `send_response` then
`Connection: close` then the `end_headers` blank line. -/
def connectReplyBytes (server date : List Char) : List Char :=
  send_response_bytes 200 "Connection Established".toList server date ++
    headerLineBytes "Connection".toList "close".toList ++ "\r\n".toList

/-! ### The `block_ip_direct` binding (`config_manager.py`,
`blocklist_manager.py` line 16-19, `api_settings_handlers.py` lines 159-167)

`blocklist_manager` runs `from ..config.settings import block_ip_direct`,
which binds the value of the settings attribute at import time.  The
settings module itself is not under `src/`; per the spec it holds the
policy flags as plain module-level booleans.  The dashboard API sets
`config_manager.block_ip_direct` and then `sync_to_legacy_settings`
rebinds the settings attribute — neither touches the name already bound
inside `blocklist_manager`. -/

/-- The three copies of the `block_ip_direct` flag. -/
structure FlagSys where
  cm_block_ip_direct : Bool
  settings_block_ip_direct : Bool
  bm_block_ip_direct : Bool
deriving DecidableEq

/-- The `from ..config.settings import block_ip_direct` executed when
`blocklist_manager` is imported: copies the current settings value. -/
def importBlocklistManager (s : FlagSys) : FlagSys :=
  { s with bm_block_ip_direct := s.settings_block_ip_direct }

/-- The dashboard settings API updating the flag: the `config_manager`
setter followed by `sync_to_legacy_settings` (which rebinds the settings
module attribute).  The binding inside `blocklist_manager` is unchanged. -/
def apiSetBlockIpDirect (v : Bool) (s : FlagSys) : FlagSys :=
  { s with cm_block_ip_direct := v, settings_block_ip_direct := v }

/-! ### Reload concurrency skeleton (`_load_blocklist` lines 59-62,
`_load_whitelist` lines 129-209, `maybe_reload_background`)

Two concurrent triggers per list type are modelled.  A blocklist loader
first reads `self._loading_lock.locked()` (skipping if held), then blocks
on `with self._loading_lock` — check and acquisition are separate atomic
steps.  A whitelist loader has no in-progress guard at all. -/

/-- Phases of a thread running `_load_blocklist`. -/
inductive BPh
  | start
  | armed
  | loading
  | done
  | skipped
deriving DecidableEq

/-- Phases of a thread running `_load_whitelist`. -/
inductive WPh
  | wstart
  | wloading
  | wdone
deriving DecidableEq

/-- Shared state: the loading lock plus two triggers of each kind. -/
structure RSt where
  lockB : Bool
  b1 : BPh
  b2 : BPh
  w1 : WPh
  w2 : WPh
deriving DecidableEq

/-- The initial state: lock free, all triggers ready to run. -/
def reloadInit : RSt := ⟨false, BPh.start, BPh.start, WPh.wstart, WPh.wstart⟩

/-- Number of blocklist loaders currently inside the load body. -/
def bLoadingCount (s : RSt) : Nat :=
  (if s.b1 = BPh.loading then 1 else 0) + (if s.b2 = BPh.loading then 1 else 0)

/-- Number of whitelist loaders currently inside the load body. -/
def wLoadingCount (s : RSt) : Nat :=
  (if s.w1 = WPh.wloading then 1 else 0) + (if s.w2 = WPh.wloading then 1 else 0)

/-- One atomic step of the reload machinery. -/
inductive RStep : RSt → RSt → Prop
  | bcheck1 (s : RSt) : s.b1 = BPh.start →
      RStep s { s with b1 := if s.lockB then BPh.skipped else BPh.armed }
  | bcheck2 (s : RSt) : s.b2 = BPh.start →
      RStep s { s with b2 := if s.lockB then BPh.skipped else BPh.armed }
  | bacq1 (s : RSt) : s.b1 = BPh.armed → s.lockB = false →
      RStep s { s with b1 := BPh.loading, lockB := true }
  | bacq2 (s : RSt) : s.b2 = BPh.armed → s.lockB = false →
      RStep s { s with b2 := BPh.loading, lockB := true }
  | bfin1 (s : RSt) : s.b1 = BPh.loading →
      RStep s { s with b1 := BPh.done, lockB := false }
  | bfin2 (s : RSt) : s.b2 = BPh.loading →
      RStep s { s with b2 := BPh.done, lockB := false }
  | wgo1 (s : RSt) : s.w1 = WPh.wstart → RStep s { s with w1 := WPh.wloading }
  | wgo2 (s : RSt) : s.w2 = WPh.wstart → RStep s { s with w2 := WPh.wloading }
  | wfin1 (s : RSt) : s.w1 = WPh.wloading → RStep s { s with w1 := WPh.wdone }
  | wfin2 (s : RSt) : s.w2 = WPh.wloading → RStep s { s with w2 := WPh.wdone }

/-- Reachability from the initial state. -/
def RReach (s : RSt) : Prop := Relation.ReflTransGen RStep reloadInit s

/-- Whether a non-CONNECT outcome forwards the request upstream. -/
def isFwd : HttpOutcome → Bool
  | HttpOutcome.forward _ _ => true
  | _ => false

/-- Whether a non-CONNECT outcome is one of the handler's 403 replies. -/
def is403 : HttpOutcome → Bool
  | HttpOutcome.blocked403 => true
  | HttpOutcome.portBlocked403 => true
  | HttpOutcome.httpBlocked403 => true
  | _ => false

/-! ### Normalization lemmas -/

theorem mem_of_dropWhile {p : Char → Bool} :
    ∀ {l : List Char} {a : Char}, a ∈ l.dropWhile p → a ∈ l := by
  intro l
  induction l with
  | nil => intro a h; exact absurd h (by simp)
  | cons x xs ih =>
    intro a h
    by_cases hp : p x
    · rw [List.dropWhile_cons_of_pos hp] at h
      exact List.mem_cons_of_mem _ (ih h)
    · rw [List.dropWhile_cons_of_neg hp] at h
      exact h

theorem dropWhile_eq_self_of {p : Char → Bool} {l : List Char}
    (h : ∀ a ∈ l, p a = false) : l.dropWhile p = l := by
  cases l with
  | nil => rfl
  | cons x xs =>
    have hx : ¬p x := by simp [h x (List.mem_cons_self x xs)]
    exact List.dropWhile_cons_of_neg hx

theorem dropWhile_idem {p : Char → Bool} (l : List Char) :
    (l.dropWhile p).dropWhile p = l.dropWhile p := by
  induction l with
  | nil => rfl
  | cons x xs ih =>
    by_cases hp : p x
    · rw [List.dropWhile_cons_of_pos hp]; exact ih
    · rw [List.dropWhile_cons_of_neg hp, List.dropWhile_cons_of_neg hp]

theorem map_eq_self_of {f : Char → Char} :
    ∀ {l : List Char}, (∀ a ∈ l, f a = a) → l.map f = l := by
  intro l
  induction l with
  | nil => intro _; rfl
  | cons x xs ih =>
    intro h
    simp only [List.map_cons]
    rw [h x (List.mem_cons_self x xs), ih (fun a ha => h a (List.mem_cons_of_mem _ ha))]

theorem char_ofNat_small : ∀ m : Nat, m < 123 → (Char.ofNat m).toNat = m := by decide

theorem pyLowerChar_idem (c : Char) :
    pyLowerChar (pyLowerChar c) = pyLowerChar c := by
  unfold pyLowerChar
  by_cases h : 65 ≤ c.toNat ∧ c.toNat ≤ 90
  · rw [if_pos h]
    have ht : (Char.ofNat (c.toNat + 32)).toNat = c.toNat + 32 :=
      char_ofNat_small _ (by omega)
    rw [if_neg (by rw [ht]; omega)]
  · rw [if_neg h, if_neg h]

theorem pyLowerChar_not_ws {c : Char} (h : isPySpace c = false) :
    isPySpace (pyLowerChar c) = false := by
  unfold pyLowerChar
  by_cases hr : 65 ≤ c.toNat ∧ c.toNat ≤ 90
  · rw [if_pos hr]
    have ht : (Char.ofNat (c.toNat + 32)).toNat = c.toNat + 32 :=
      char_ofNat_small _ (by omega)
    simp only [isPySpace, decide_eq_false_iff_not]
    rw [ht]
    omega
  · rw [if_neg hr]; exact h

theorem noWs_mem {h : List Char} (hws : noWs h = true) {a : Char} (ha : a ∈ h) :
    isPySpace a = false := by
  have := List.all_eq_true.mp hws a ha
  simpa using this

theorem mem_stripL {l : List Char} {a : Char} (h : a ∈ stripL l) : a ∈ l := by
  unfold stripL at h
  rw [List.mem_reverse] at h
  have h2 := mem_of_dropWhile h
  rw [List.mem_reverse] at h2
  exact mem_of_dropWhile h2

theorem rstripDots_idem (l : List Char) : rstripDots (rstripDots l) = rstripDots l := by
  unfold rstripDots
  rw [List.reverse_reverse, dropWhile_idem]

theorem pyNormalize_chars {h : List Char} (hws : noWs h = true) :
    ∀ c ∈ pyNormalize h, isPySpace c = false ∧ pyLowerChar c = c := by
  intro c hc
  unfold pyNormalize rstripDots at hc
  rw [List.mem_reverse] at hc
  have hc2 := mem_of_dropWhile hc
  rw [List.mem_reverse] at hc2
  obtain ⟨b, hb, rfl⟩ := List.mem_map.mp hc2
  have hbw : isPySpace b = false := noWs_mem hws (mem_stripL hb)
  exact ⟨pyLowerChar_not_ws hbw, pyLowerChar_idem b⟩

theorem pyNormalize_stable {h : List Char} (hws : noWs h = true) :
    pyNormalize (pyNormalize h) = pyNormalize h := by
  have hch := pyNormalize_chars hws
  have h1 : stripL (pyNormalize h) = pyNormalize h := by
    unfold stripL
    rw [dropWhile_eq_self_of (fun a ha => (hch a ha).1),
      dropWhile_eq_self_of (fun a ha => (hch a (List.mem_reverse.mp ha)).1),
      List.reverse_reverse]
  have h2 : lowerL (pyNormalize h) = pyNormalize h :=
    map_eq_self_of (fun a ha => (hch a ha).2)
  show rstripDots (lowerL (stripL (pyNormalize h))) = pyNormalize h
  rw [h1, h2]
  exact rstripDots_idem (lowerL (stripL h))

/-! ### Label-suffix lemmas -/

theorem splitOnDot_ne_nil : ∀ l : List Char, splitOnDot l ≠ [] := by
  intro l
  cases l with
  | nil => simp [splitOnDot]
  | cons c cs =>
    unfold splitOnDot
    by_cases h : c = '.'
    · simp [h]
    · rw [if_neg h]
      cases splitOnDot cs <;> simp

theorem joinDots_splitOnDot : ∀ l : List Char, joinDots (splitOnDot l) = l := by
  intro l
  induction l with
  | nil => rfl
  | cons c cs ih =>
    by_cases h : c = '.'
    · cases e : splitOnDot cs with
      | nil => exact absurd e (splitOnDot_ne_nil cs)
      | cons p ps =>
        have h1 : splitOnDot (c :: cs) = [] :: p :: ps := by
          unfold splitOnDot; rw [if_pos h, e]
        rw [h1]
        show '.' :: joinDots (p :: ps) = c :: cs
        rw [← e, ih, h]
    · cases e : splitOnDot cs with
      | nil => exact absurd e (splitOnDot_ne_nil cs)
      | cons p ps =>
        have h1 : splitOnDot (c :: cs) = (c :: p) :: ps := by
          unfold splitOnDot; rw [if_neg h, e]
        rw [h1]
        cases ps with
        | nil =>
          rw [e] at ih
          exact congrArg (List.cons c) ih
        | cons q qs =>
          rw [e] at ih
          show (c :: p) ++ '.' :: joinDots (q :: qs) = c :: cs
          rw [List.cons_append]
          exact congrArg (List.cons c) ih

theorem self_mem_labelSuffixes (l : List Char) :
    l ∈ labelSuffixes (splitOnDot l) := by
  cases e : splitOnDot l with
  | nil => exact absurd e (splitOnDot_ne_nil l)
  | cons p ps =>
    show l ∈ joinDots (p :: ps) :: labelSuffixes ps
    rw [← e, joinDots_splitOnDot]
    exact List.mem_cons_self _ _

theorem mem_labelSuffixes_append :
    ∀ (pre : List (List Char)) (e : List Char), e ∈ labelSuffixes (pre ++ [e]) := by
  intro pre e
  induction pre with
  | nil =>
    show e ∈ [joinDots [e]]
    simp [joinDots]
  | cons x xs ih =>
    show e ∈ joinDots (x :: (xs ++ [e])) :: labelSuffixes (xs ++ [e])
    exact List.mem_cons_of_mem _ ih

/-! ### Resolver decision lemmas -/

theorem is_whitelisted_norm (isIp : List Char → Bool) (r : Resolver)
    {h : List Char} (hws : noWs h = true) :
    is_whitelisted isIp r (some (pyNormalize h)) = is_whitelisted isIp r (some h) := by
  by_cases hh : h = []
  · subst hh; rfl
  · by_cases hn : pyNormalize h = []
    · rw [hn]
      simp [is_whitelisted, hh, hn]
    · have hst := pyNormalize_stable hws
      simp [is_whitelisted, hh, hn, hst]

theorem is_whitelisted_true_of_cand (isIp : List Char → Bool) (r : Resolver)
    {n : List Char} (h0 : n ≠ []) (hst : pyNormalize n = n) (hip : isIp n = false)
    (hm : ∃ s ∈ labelSuffixes (splitOnDot n),
      memL s r.whitelisted_domains_local = true) :
    is_whitelisted isIp r (some n) = true := by
  simp only [is_whitelisted, hst]
  rw [if_neg h0, if_neg h0, if_neg (by simp [hip])]
  exact List.any_eq_true.mpr hm

theorem is_whitelisted_true_of_ip (isIp : List Char → Bool) (r : Resolver)
    {n : List Char} (h0 : n ≠ []) (hst : pyNormalize n = n) (hip : isIp n = true)
    (hm : memL n r.whitelisted_domains_local = true ∨
      r.whitelisted_networks.any (fun net => net n) = true) :
    is_whitelisted isIp r (some n) = true := by
  simp only [is_whitelisted, hst]
  rw [if_neg h0, if_neg h0, if_pos (by simp [hip])]
  cases hm with
  | inl h1 => simp [h1]
  | inr h1 => simp [h1]

theorem is_blocked_false_of_wl (isIp : List Char → Bool) (r : Resolver)
    (g : Globals) {h : List Char}
    (hw : is_whitelisted isIp r (some (pyNormalize h)) = true) :
    is_blocked isIp r g (some h) = false := by
  by_cases hh : h = []
  · simp [is_blocked, hh]
  · by_cases hn : pyNormalize h = []
    · rw [hn] at hw
      simp [is_whitelisted] at hw
    · simp [is_blocked, hh, hn, hw]

theorem is_blocked_false_of_ip_gwl (isIp : List Char → Bool) (r : Resolver)
    (g : Globals) {h : List Char} (hne : pyNormalize h ≠ [])
    (hip : isIp (pyNormalize h) = true)
    (hm : memL (pyNormalize h) g.whitelisted_domains = true) :
    is_blocked isIp r g (some h) = false := by
  have hh : h ≠ [] := by
    intro e
    exact hne (by rw [e]; rfl)
  cases hw : is_whitelisted isIp r (some (pyNormalize h)) with
  | true => exact is_blocked_false_of_wl _ _ _ hw
  | false => simp [is_blocked, hh, hne, hw, hip, hm]

/-! ### Claim theorems -/

/-- C1: the code at the failing input.  With one configured blocklist source
whose three fetch attempts all fail (and a second equally failed source),
the reload replaces the pre-reload blocked-domain set
`{"ads.example"}` by the empty set and still updates `last_reload` —
the previous snapshot is not preserved, contradicting the claim. -/
theorem c1_total_failure_wipes :
    (load_blocklist isIpv4 ⟨["ads.example".toList], [], [], 0⟩
      [none, none] 42).blocked_domains = [] ∧
    (⟨["ads.example".toList], [], [], 0⟩ : Resolver).blocked_domains =
      ["ads.example".toList] ∧
    (load_blocklist isIpv4 ⟨["ads.example".toList], [], [], 0⟩
      [none, none] 42).last_reload = 42 := by decide

/-- C2: whitelist always wins.  For every whitespace-free hostname, if the
normalized host is a non-IP whose own string or any right-aligned label
suffix is in the resolver's whitelist domain set, or is a literal IP that is
exactly whitelisted (locally or globally) or contained in a whitelisted
network, then `_is_blocked` returns false — for every content of the
blocklist and manual block sets and every value of `block_ip_direct`. -/
theorem c2_whitelist_priority (isIp : List Char → Bool) (r : Resolver)
    (g : Globals) (h : List Char) (hws : noWs h = true)
    (hyp :
      (isIp (pyNormalize h) = false ∧
        (memL (pyNormalize h) r.whitelisted_domains_local = true ∨
         ∃ s ∈ labelSuffixes (splitOnDot (pyNormalize h)),
           memL s r.whitelisted_domains_local = true)) ∨
      (isIp (pyNormalize h) = true ∧
        (memL (pyNormalize h) r.whitelisted_domains_local = true ∨
         memL (pyNormalize h) g.whitelisted_domains = true ∨
         r.whitelisted_networks.any (fun net => net (pyNormalize h)) = true))) :
    is_blocked isIp r g (some h) = false := by
  by_cases hn : pyNormalize h = []
  · by_cases hh : h = []
    · simp [is_blocked, hh]
    · simp [is_blocked, hh, hn]
  · have hst := pyNormalize_stable hws
    cases hyp with
    | inl hy =>
      obtain ⟨hip, hm⟩ := hy
      have hm2 : ∃ s ∈ labelSuffixes (splitOnDot (pyNormalize h)),
          memL s r.whitelisted_domains_local = true := by
        cases hm with
        | inl h1 => exact ⟨pyNormalize h, self_mem_labelSuffixes _, h1⟩
        | inr h1 => exact h1
      exact is_blocked_false_of_wl _ _ _
        (is_whitelisted_true_of_cand _ _ hn hst hip hm2)
    | inr hy =>
      obtain ⟨hip, hm⟩ := hy
      rcases hm with h1 | h1 | h1
      · exact is_blocked_false_of_wl _ _ _
          (is_whitelisted_true_of_ip _ _ hn hst hip (Or.inl h1))
      · exact is_blocked_false_of_ip_gwl _ _ _ hn hip h1
      · exact is_blocked_false_of_wl _ _ _
          (is_whitelisted_true_of_ip _ _ hn hst hip (Or.inr h1))

/-- C2 witness: `good.test` sits in the whitelist, the blocklist and the
manual block set at once; it is still not blocked. -/
theorem c2_whitelist_priority_witness :
    is_blocked isIpv4
      ⟨["good.test".toList], ["good.test".toList], [], 0⟩
      ⟨["good.test".toList], [], true⟩ (some "good.test".toList) = false := by
  apply c2_whitelist_priority isIpv4 _ _ _ (by decide)
  exact Or.inl ⟨by decide, Or.inl (by decide)⟩

/-- C3 (amended): for a whitespace-free, non-empty-normalizing, non-IP,
non-whitelisted hostname, `_is_blocked` is true iff the normalized host is
in the blocklist or manual block set, or some strict parent suffix of
length at least 3 containing a dot is. -/
theorem c3_parent_blocking (isIp : List Char → Bool) (r : Resolver)
    (g : Globals) (h : List Char) (hws : noWs h = true)
    (hne : pyNormalize h ≠ []) (hip : isIp (pyNormalize h) = false)
    (hwl : is_whitelisted isIp r (some h) = false) :
    is_blocked isIp r g (some h) = true ↔
      (memL (pyNormalize h) r.blocked_domains = true ∨
       memL (pyNormalize h) g.manual_blocked_domains = true ∨
       ∃ p ∈ labelSuffixes (splitOnDot (pyNormalize h)).tail,
         3 ≤ p.length ∧ hasChar '.' p = true ∧
           (memL p r.blocked_domains = true ∨
            memL p g.manual_blocked_domains = true)) := by
  have hh : h ≠ [] := fun e => hne (by rw [e]; rfl)
  have hw2 : is_whitelisted isIp r (some (pyNormalize h)) = false := by
    rw [is_whitelisted_norm isIp r hws]; exact hwl
  simp only [is_blocked]
  rw [if_neg hh, if_neg hne, if_neg (by simp [hw2]), if_neg (by simp [hip])]
  by_cases hex : memL (pyNormalize h) r.blocked_domains = true
  · simp [hex]
  · by_cases hex2 : memL (pyNormalize h) g.manual_blocked_domains = true
    · simp [hex, hex2]
    · simp [hex, hex2, List.any_eq_true, and_assoc]

/-- C3 witness: blocklist `{"tracker.net"}` blocks
`deep.sub.tracker.net` and does not block `trackernet.com`. -/
theorem c3_parent_blocking_witness :
    is_blocked isIpv4 ⟨["tracker.net".toList], [], [], 0⟩ ⟨[], [], true⟩
        (some "deep.sub.tracker.net".toList) = true ∧
    is_blocked isIpv4 ⟨["tracker.net".toList], [], [], 0⟩ ⟨[], [], true⟩
        (some "trackernet.com".toList) = false := by
  constructor
  · exact (c3_parent_blocking isIpv4 _ _ _ (by decide) (by decide) (by decide)
      (by decide)).mpr (by decide)
  · have hiff := c3_parent_blocking isIpv4 ⟨["tracker.net".toList], [], [], 0⟩
      ⟨[], [], true⟩ "trackernet.com".toList (by decide) (by decide) (by decide)
      (by decide)
    cases e : is_blocked isIpv4 ⟨["tracker.net".toList], [], [], 0⟩
        ⟨[], [], true⟩ (some "trackernet.com".toList) with
    | false => rfl
    | true => exact absurd (hiff.mp e) (by decide)

/-- C3 counterexample: `"com"` is a bare TLD entry (no dot), yet with
`{"com"}` in the manual block set the hostname `com` IS blocked by the
exact-match check — the claim's "a bare TLD entry never blocks any
hostname" fails. -/
theorem c3_counterexample :
    hasChar '.' "com".toList = false ∧
    is_blocked isIpv4 ⟨[], [], [], 0⟩ ⟨["com".toList], [], true⟩
      (some "com".toList) = true := by decide

/-- C4: the code at the failing input.  Start with the settings flag equal
to `v0` and import `blocklist_manager` (binding `v0`); the dashboard API
then sets `block_ip_direct` to `!v0` (config manager plus
`sync_to_legacy_settings`).  The current flag value is `!v0`, but the
decision for the non-whitelisted literal IP `8.8.8.8` still returns the
import-time value `v0`: the change is not observable. -/
theorem c4_flag_binding_stale : ∀ v0 : Bool,
    (apiSetBlockIpDirect (!v0)
      (importBlocklistManager ⟨v0, v0, v0⟩)).cm_block_ip_direct = !v0 ∧
    is_blocked isIpv4 ⟨[], [], [], 0⟩
      ⟨[], [], (apiSetBlockIpDirect (!v0)
        (importBlocklistManager ⟨v0, v0, v0⟩)).bm_block_ip_direct⟩
      (some "8.8.8.8".toList) = v0 := by decide

/-- C9 (amended): for a whitespace-free hostname that does NOT parse as a
literal IP, any whitelist entry equal to the final label of the normalized
host (a suffix with no minimum length or dot requirement) makes
`is_whitelisted` true, and by whitelist priority `_is_blocked` false. -/
theorem c9_whitelist_single_label (isIp : List Char → Bool) (r : Resolver)
    (g : Globals) (h e : List Char) (hws : noWs h = true)
    (hne : pyNormalize h ≠ []) (hip : isIp (pyNormalize h) = false)
    (hlast : ∃ pre, splitOnDot (pyNormalize h) = pre ++ [e])
    (hmem : memL e r.whitelisted_domains_local = true) :
    is_whitelisted isIp r (some h) = true ∧
      is_blocked isIp r g (some h) = false := by
  have hst := pyNormalize_stable hws
  obtain ⟨pre, hpre⟩ := hlast
  have hm : ∃ s ∈ labelSuffixes (splitOnDot (pyNormalize h)),
      memL s r.whitelisted_domains_local = true := by
    refine ⟨e, ?_, hmem⟩
    rw [hpre]
    exact mem_labelSuffixes_append pre e
  have hwl := is_whitelisted_true_of_cand isIp r hne hst hip hm
  constructor
  · rw [← is_whitelisted_norm isIp r hws]; exact hwl
  · exact is_blocked_false_of_wl _ _ _ hwl

/-- C9 witness: the single-label entry `"com"` whitelists `x.com`. -/
theorem c9_whitelist_single_label_witness :
    is_whitelisted isIpv4 ⟨[], ["com".toList], [], 0⟩
      (some "x.com".toList) = true ∧
    is_blocked isIpv4 ⟨[], ["com".toList], [], 0⟩ ⟨[], [], true⟩
      (some "x.com".toList) = false :=
  c9_whitelist_single_label isIpv4 _ _ _ "com".toList (by decide) (by decide)
    (by decide) ⟨["x".toList], by decide⟩ (by decide)

/-- C9 counterexample: the hostname `1.2.3.4` ends with the single label
`"4"`, which is the whitelist entry, yet `is_whitelisted` is false (the IP
branch never runs the suffix loop) and with `block_ip_direct` the host is
even blocked — the claim's "for every hostname" fails on IP literals. -/
theorem c9_counterexample :
    (∃ pre, splitOnDot (pyNormalize "1.2.3.4".toList) = pre ++ ["4".toList]) ∧
    memL "4".toList (["4".toList] : List (List Char)) = true ∧
    is_whitelisted isIpv4 ⟨[], ["4".toList], [], 0⟩
      (some "1.2.3.4".toList) = false ∧
    is_blocked isIpv4 ⟨[], ["4".toList], [], 0⟩ ⟨[], [], true⟩
      (some "1.2.3.4".toList) = true := by
  exact ⟨⟨["1".toList, "2".toList, "3".toList], by decide⟩,
    by decide, by decide, by decide⟩

/-- C10 (amended): for a `None` hostname, or any hostname whose
normalization (strip whitespace, lowercase, strip trailing dots) is empty —
which covers the empty string, all-dots, and whitespace-around-dots
strings — both `is_whitelisted` and `_is_blocked` return false, whatever
the lists and flags contain. -/
theorem c10_empty_host (isIp : List Char → Bool) (r : Resolver) (g : Globals)
    (h : Option (List Char))
    (hyp : h = none ∨ ∃ s, h = some s ∧ pyNormalize s = []) :
    is_whitelisted isIp r h = false ∧ is_blocked isIp r g h = false := by
  cases hyp with
  | inl he => subst he; exact ⟨rfl, rfl⟩
  | inr he =>
    obtain ⟨s, rfl, hs⟩ := he
    by_cases hh : s = []
    · subst hh; exact ⟨rfl, rfl⟩
    · constructor
      · simp [is_whitelisted, hh, hs]
      · simp [is_blocked, hh, hs]

/-- C10 witness: `" ... "` normalizes to the empty string and is neither
whitelisted nor blocked. -/
theorem c10_empty_host_witness :
    is_whitelisted isIpv4 ⟨[], [], [], 0⟩ (some " ... ".toList) = false ∧
    is_blocked isIpv4 ⟨[], [], [], 0⟩ ⟨[], [], true⟩
      (some " ... ".toList) = false :=
  c10_empty_host isIpv4 _ _ _ (Or.inr ⟨" ... ".toList, rfl, by decide⟩)

/-- C10 counterexample: `". ."` consists only of whitespace and dots, yet it
does not normalize to empty (it normalizes to `". "`), and with that string
in the blocked set `_is_blocked` returns true — refuting "regardless of the
contents of the lists". -/
theorem c10_counterexample :
    (". .".toList.all (fun c => decide (c = '.') || isPySpace c) = true) ∧
    is_blocked isIpv4 ⟨[". ".toList], [], [], 0⟩ ⟨[], [], true⟩
      (some ". .".toList) = true := by decide

/-- C5 (amended): in the non-CONNECT branch, for a non-whitelisted target
with `filteringEnabled` and `blockHTTPTraffic` both on, a request whose
path is in absolute form with scheme `http` is never forwarded upstream,
and whenever the target host and port parse it receives a 403.  (The check
is `path.startswith("http://")`: relative-form requests, whose scheme is
merely assumed `http`, are not covered.) -/
theorem c5_http_scheme_block (isIp : List Char → Bool) (r : Resolver)
    (g : Globals) (fl : Flags) (resolveIp : List Char → List Char)
    (path hostHeader : List Char)
    (habs : leadsWith "http://".toList path = true)
    (hwl : is_whitelisted isIp r (httpReqHostname path hostHeader) = false)
    (hbe : fl.block_enabled = true) (hbt : fl.block_http_traffic = true) :
    isFwd (handle_http_method isIp r g fl resolveIp path hostHeader).1 = false ∧
    ∀ th port, httpTarget path hostHeader = Except.ok (some th, port) →
      is403 (handle_http_method isIp r g fl resolveIp path hostHeader).1 = true := by
  constructor
  · simp only [handle_http_method, hwl, hbe, hbt, habs, Bool.not_false,
      Bool.true_and, Bool.and_true]
    split
    · simp [isFwd]
    · split
      · simp [isFwd]
      · simp [isFwd]
      · split
        · simp [isFwd]
        · simp [isFwd]
  · intro th port heq
    simp only [handle_http_method, hwl, hbe, hbt, habs, Bool.not_false,
      Bool.true_and, Bool.and_true]
    rw [heq]
    split
    · simp [is403]
    · split
      · simp_all
      · simp_all
      · simp_all
        split <;> rfl

/-- C5 witness: `GET http://ads.example/px` with empty lists, every flag on,
Host header absent: the handler replies the HTTP-traffic 403 and does not
forward. -/
theorem c5_http_scheme_block_witness :
    isFwd (handle_http_method isIpv4 ⟨[], [], [], 0⟩ ⟨[], [], true⟩
      ⟨true, true, true⟩ (fun h => h) "http://ads.example/px".toList
      "".toList).1 = false ∧
    is403 (handle_http_method isIpv4 ⟨[], [], [], 0⟩ ⟨[], [], true⟩
      ⟨true, true, true⟩ (fun h => h) "http://ads.example/px".toList
      "".toList).1 = true := by
  have h := c5_http_scheme_block isIpv4 ⟨[], [], [], 0⟩ ⟨[], [], true⟩
    ⟨true, true, true⟩ (fun h => h) "http://ads.example/px".toList "".toList
    (by decide) (by decide) (by decide) (by decide)
  exact ⟨h.1, h.2 "ads.example".toList 80 rfl⟩

/-- C5 counterexample: a relative-form request (`GET /index.html` with
`Host: example.com`) under `filteringEnabled` and `blockHTTPTraffic`, scheme
assumed http, not whitelisted — the claim demands a 403, but the handler
forwards it upstream. -/
theorem c5_counterexample :
    handle_http_method isIpv4 ⟨[], [], [], 0⟩ ⟨[], [], true⟩ ⟨true, true, true⟩
      (fun h => h) "/index.html".toList "example.com".toList
    = (HttpOutcome.forward "example.com".toList 80,
       [⟨EvKind.allowed, "example.com".toList, "example.com".toList⟩]) := by
  decide

/-- C6 (amended): in both branches the emitted statistics events are
exactly: one `blocked` event on a blocklist 403; one `allowed` event on a
CONNECT tunnel allow, and on a non-CONNECT forward whose target host is not
`127.0.0.1`/`localhost`; and no event on whitelist bypasses, port-policy
403s, HTTP-policy 403s, 400/502 replies, malformed requests, or loopback
forwards. -/
theorem c6_event_emission (isIp : List Char → Bool) (r : Resolver)
    (g : Globals) (fl : Flags) (resolveIp : List Char → List Char)
    (cpath path hostHeader : List Char) :
    connectEventsOk (do_CONNECT isIp r g fl resolveIp cpath) = true ∧
    httpEventsOk (handle_http_method isIp r g fl resolveIp path hostHeader) = true := by
  constructor
  · simp only [do_CONNECT]
    repeat' split
    all_goals simp_all [connectEventsOk]
  · simp only [handle_http_method]
    repeat' split
    all_goals simp_all [httpEventsOk]

/-- C6 counterexample: a CONNECT to a whitelisted host is an allow decision
(the proxy replies 200 and relays), yet no event is emitted to the stats
collector — refuting "on every decision one event". -/
theorem c6_counterexample :
    do_CONNECT isIpv4 ⟨[], ["good.test".toList], [], 0⟩ ⟨[], [], true⟩
      ⟨true, true, true⟩ (fun h => h) "good.test:443".toList
    = (ConnectOutcome.bypassTunnel, []) := by decide

/-- C7 (amended): the pre-relay reply of an allowed CONNECT is the status
line `HTTP/1.1 200 Connection Established`, then the `Server:` and `Date:`
header lines that `http.server.send_response` inserts, then
`Connection: close` and the blank line — not the bare three-line sequence
of the claim. -/
theorem c7_connect_reply (server date : List Char) :
    connectReplyBytes server date =
      "HTTP/1.1 200 Connection Established\r\nServer: ".toList ++ server ++
        ("\r\nDate: ".toList ++ (date ++ "\r\nConnection: close\r\n\r\n".toList)) := by
  have h200 : digitsOf 200 = "200".toList := by decide
  simp only [connectReplyBytes, send_response_bytes, statusLineBytes,
    headerLineBytes, h200, List.append_assoc]
  rfl

/-- C7 counterexample: at a concrete `Server:`/`Date:` pair the reply bytes
differ from the exact sequence
`HTTP/1.1 200 Connection Established\r\nConnection: close\r\n\r\n`
required by the claim. -/
theorem c7_counterexample :
    connectReplyBytes "BaseHTTP/0.6 Python/3.12.0".toList
        "Sun, 12 Oct 2025 00:00:00 GMT".toList ≠
      "HTTP/1.1 200 Connection Established\r\nConnection: close\r\n\r\n".toList := by
  decide

theorem rstep_preserves_binv {s t : RSt} (hstep : RStep s t)
    (h1 : bLoadingCount s ≤ 1) (h2 : s.lockB = false → bLoadingCount s = 0) :
    bLoadingCount t ≤ 1 ∧ (t.lockB = false → bLoadingCount t = 0) := by
  obtain ⟨lk, b1, b2, w1, w2⟩ := s
  revert h1 h2
  cases hstep with
  | bcheck1 hb =>
    have hb2 : b1 = BPh.start := hb
    subst hb2
    cases lk <;> cases b2 <;> cases w1 <;> cases w2 <;> decide
  | bcheck2 hb =>
    have hb2 : b2 = BPh.start := hb
    subst hb2
    cases lk <;> cases b1 <;> cases w1 <;> cases w2 <;> decide
  | bacq1 hb hl =>
    have hb2 : b1 = BPh.armed := hb
    have hl2 : lk = false := hl
    subst hb2
    subst hl2
    cases b2 <;> cases w1 <;> cases w2 <;> decide
  | bacq2 hb hl =>
    have hb2 : b2 = BPh.armed := hb
    have hl2 : lk = false := hl
    subst hb2
    subst hl2
    cases b1 <;> cases w1 <;> cases w2 <;> decide
  | bfin1 hb =>
    have hb2 : b1 = BPh.loading := hb
    subst hb2
    cases lk <;> cases b2 <;> cases w1 <;> cases w2 <;> decide
  | bfin2 hb =>
    have hb2 : b2 = BPh.loading := hb
    subst hb2
    cases lk <;> cases b1 <;> cases w1 <;> cases w2 <;> decide
  | wgo1 hw => cases lk <;> cases b1 <;> cases b2 <;> cases w1 <;> cases w2 <;> decide
  | wgo2 hw => cases lk <;> cases b1 <;> cases b2 <;> cases w1 <;> cases w2 <;> decide
  | wfin1 hw => cases lk <;> cases b1 <;> cases b2 <;> cases w1 <;> cases w2 <;> decide
  | wfin2 hw => cases lk <;> cases b1 <;> cases b2 <;> cases w1 <;> cases w2 <;> decide

/-- C8 (amended): blocklist reloads are serialized by the loading lock — in
every reachable state at most one blocklist loader is inside the load body,
and a blocklist trigger whose check runs while a load is in flight takes
the skip transition (its request is a no-op).  Whitelist reloads carry no
such guard (see the counterexample). -/
theorem c8_reload_serialization : ∀ s : RSt, RReach s →
    bLoadingCount s ≤ 1 ∧
    (s.b1 = BPh.start → 1 ≤ bLoadingCount s →
      RStep s { s with b1 := BPh.skipped }) := by
  intro s hs
  have hinv : bLoadingCount s ≤ 1 ∧ (s.lockB = false → bLoadingCount s = 0) := by
    unfold RReach at hs
    induction hs with
    | refl => exact ⟨by decide, fun _ => by decide⟩
    | tail hper hstep ih => exact rstep_preserves_binv hstep ih.1 ih.2
  refine ⟨hinv.1, ?_⟩
  intro hb1 hcount
  have hlock : s.lockB = true := by
    cases hl : s.lockB
    · have h0 := hinv.2 hl
      omega
    · rfl
  have hstep := RStep.bcheck1 s hb1
  rw [hlock] at hstep
  rw [show ({ s with b1 := BPh.skipped } : RSt) =
    { lockB := true, b1 := BPh.skipped, b2 := s.b2, w1 := s.w1, w2 := s.w2 } by
      rw [← hlock]]
  simpa using hstep

/-- C8 witness: after one trigger acquires the lock and is loading, the
reachable state satisfies the invariant, and the other trigger's pending
check is exactly the skip transition. -/
theorem c8_reload_serialization_witness :
    RReach ⟨true, BPh.start, BPh.loading, WPh.wstart, WPh.wstart⟩ ∧
    bLoadingCount ⟨true, BPh.start, BPh.loading, WPh.wstart, WPh.wstart⟩ ≤ 1 ∧
    RStep ⟨true, BPh.start, BPh.loading, WPh.wstart, WPh.wstart⟩
      ⟨true, BPh.skipped, BPh.loading, WPh.wstart, WPh.wstart⟩ := by
  have s1 : RStep reloadInit
      ⟨false, BPh.start, BPh.armed, WPh.wstart, WPh.wstart⟩ :=
    RStep.bcheck2 reloadInit rfl
  have s2 : RStep ⟨false, BPh.start, BPh.armed, WPh.wstart, WPh.wstart⟩
      ⟨true, BPh.start, BPh.loading, WPh.wstart, WPh.wstart⟩ :=
    RStep.bacq2 ⟨false, BPh.start, BPh.armed, WPh.wstart, WPh.wstart⟩ rfl rfl
  have hreach : RReach ⟨true, BPh.start, BPh.loading, WPh.wstart, WPh.wstart⟩ :=
    Relation.ReflTransGen.tail (Relation.ReflTransGen.single s1) s2
  have h := c8_reload_serialization _ hreach
  exact ⟨hreach, h.1, h.2 rfl (by decide)⟩

/-- C8 counterexample: both whitelist triggers enter the load body — a
reachable state with TWO whitelist reloads in flight; a whitelist reload
started while another is in progress is not a no-op
(`_load_whitelist` has no in-progress guard). -/
theorem c8_counterexample :
    RReach ⟨false, BPh.start, BPh.start, WPh.wloading, WPh.wloading⟩ ∧
    wLoadingCount ⟨false, BPh.start, BPh.start, WPh.wloading, WPh.wloading⟩ = 2 := by
  have s1 : RStep reloadInit
      ⟨false, BPh.start, BPh.start, WPh.wloading, WPh.wstart⟩ :=
    RStep.wgo1 reloadInit rfl
  have s2 : RStep ⟨false, BPh.start, BPh.start, WPh.wloading, WPh.wstart⟩
      ⟨false, BPh.start, BPh.start, WPh.wloading, WPh.wloading⟩ :=
    RStep.wgo2 _ rfl
  exact ⟨Relation.ReflTransGen.tail (Relation.ReflTransGen.single s1) s2,
    by decide⟩
